import Mathlib

/-!
Verification of the dataconv core (query parser transform, path evaluator,
condition evaluator / filter engine, and per-format validators) against its
natural-language specification.

The Python value universe flowing through the system is embedded as the
inductive `PyVal` below.  Machine floats are modelled as exact rationals
together with the three non-finite IEEE values (`PyFloat`); `float()`
conversion of small integers is exact in Python and is modelled as exact
here (rounding of conversions beyond 2^53 is not modelled, no claim
exercises it).  Python `dict` keys must be hashable, so only scalar keys
(`PyKey`) are representable.  The temporal leaves (`datetime`, `date`,
`time`) and `Decimal` accepted by some validators are carried as leaf
constructors whose payloads are elided: no validator or processor branch
inspects them beyond their runtime type.
-/

/-- Python float: exact finite value or one of the IEEE specials. -/
inductive PyFloat where
  | finite (q : ℚ)
  | nan
  | inf
  | ninf
deriving DecidableEq, Repr

/-- Hashable scalar usable as a Python dict key. -/
inductive PyKey where
  | none
  | bool (b : Bool)
  | int (n : ℤ)
  | float (f : PyFloat)
  | str (s : String)
deriving DecidableEq, Repr

/-- The Python value universe flowing through dataconv: the JSON-like data
tree plus the temporal / Decimal leaves distinguished by the validators. -/
inductive PyVal where
  | none
  | bool (b : Bool)
  | int (n : ℤ)
  | float (f : PyFloat)
  | str (s : String)
  | list (xs : List PyVal)
  | dict (kvs : List (PyKey × PyVal))
  | datetime
  | date
  | time
  | decimal (q : ℚ)

/-- math.isfinite. -/
def PyFloat.isFinite : PyFloat → Bool
  | .finite _ => true
  | _ => false

/-- IEEE equality on doubles (nan is not equal to anything, including itself). -/
def PyFloat.eqF : PyFloat → PyFloat → Bool
  | .finite a, .finite b => decide (a = b)
  | .inf, .inf => true
  | .ninf, .ninf => true
  | _, _ => false

/-- IEEE strict ordering on doubles (any comparison with nan is false). -/
def PyFloat.ltF : PyFloat → PyFloat → Bool
  | .finite a, .finite b => decide (a < b)
  | .finite _, .inf => true
  | .ninf, .finite _ => true
  | .ninf, .inf => true
  | _, _ => false

/-- IEEE non-strict ordering: a <= b iff a < b or a == b. -/
def PyFloat.leF (a b : PyFloat) : Bool :=
  PyFloat.ltF a b || PyFloat.eqF a b

/-- Python str() of a dict key, as used when validators extend the issue
path with a key.  Finite-float formatting is abbreviated to the rational
rendering; no claim inspects the rendering of non-string keys. -/
def keyStr : PyKey → String
  | .none => "None"
  | .bool b => if b then "True" else "False"
  | .int n => toString n
  | .float (.finite q) => toString q
  | .float .nan => "nan"
  | .float .inf => "inf"
  | .float .ninf => "-inf"
  | .str s => s

/-- Python str() of a float, abbreviated for finite values. -/
def floatStr : PyFloat → String
  | .finite q => toString q
  | .nan => "nan"
  | .inf => "inf"
  | .ninf => "-inf"

/-- Python runtime types occurring in the modelled universe
(type(v) for a PyVal). -/
inductive PyType where
  | noneT
  | boolT
  | intT
  | floatT
  | strT
  | listT
  | dictT
  | datetimeT
  | dateT
  | timeT
  | decimalT
deriving DecidableEq, Repr

/-- type(v). -/
def typeOf : PyVal → PyType
  | .none => .noneT
  | .bool _ => .boolT
  | .int _ => .intT
  | .float _ => .floatT
  | .str _ => .strT
  | .list _ => .listT
  | .dict _ => .dictT
  | .datetime => .datetimeT
  | .date => .dateT
  | .time => .timeT
  | .decimal _ => .decimalT

/-- isinstance(v, t) for the exact types of the modelled universe.  The two
proper subclass relations among them are bool <= int and datetime <= date. -/
def isinst (v : PyVal) (t : PyType) : Bool :=
  typeOf v = t
    || (typeOf v = PyType.boolT && t = PyType.intT)
    || (typeOf v = PyType.datetimeT && t = PyType.dateT)

/-- isinstance(v, (int, float)): the numeric test of evaluate_condition.
bool is a subclass of int in Python, so booleans pass it. -/
def PyVal.isNumber : PyVal → Bool
  | .bool _ => true
  | .int _ => true
  | .float _ => true
  | _ => false

/-- v is None. -/
def PyVal.isNone : PyVal → Bool
  | .none => true
  | _ => false

/-- float(v) for a value passing isinstance(v, (int, float)); exact in the
model (Python float() of bool/int is exact up to 2^53).  Non-numeric values
never reach this conversion; they are mapped to nan as a dummy. -/
def toF : PyVal → PyFloat
  | .bool b => .finite (if b then 1 else 0)
  | .int n => .finite (n : ℚ)
  | .float f => f
  | _ => .nan

mutual
/-- Python == on the modelled universe.  Cross-kind numeric equality is
exact (1 == 1.0 == True).  Dict equality is modelled entrywise in entry
order; Python compares dicts by key set, but no code path under
verification ever compares two reordered dicts. -/
def pyEq (a b : PyVal) : Bool :=
  if a.isNumber && b.isNumber then PyFloat.eqF (toF a) (toF b)
  else
    match a, b with
    | .none, .none => true
    | .str s, .str t => s = t
    | .list xs, .list ys => pyEqList xs ys
    | .dict xs, .dict ys => pyEqDict xs ys
    | .datetime, .datetime => true
    | .date, .date => true
    | .time, .time => true
    | .decimal p, .decimal q => decide (p = q)
    | _, _ => false

def pyEqList : List PyVal → List PyVal → Bool
  | [], [] => true
  | x :: xs, y :: ys => pyEq x y && pyEqList xs ys
  | _, _ => false

def pyEqDict : List (PyKey × PyVal) → List (PyKey × PyVal) → Bool
  | [], [] => true
  | (k1, v1) :: xs, (k2, v2) :: ys => k1 = k2 && pyEq v1 v2 && pyEqDict xs ys
  | _, _ => false
end

mutual
/-- Python < with TypeError modelled as `Except.error ()`.  Numbers compare
numerically, strings by code point, lists lexicographically; every other
combination raises TypeError. -/
def pyLt (a b : PyVal) : Except Unit Bool :=
  if a.isNumber && b.isNumber then .ok (PyFloat.ltF (toF a) (toF b))
  else
    match a, b with
    | .str s, .str t => .ok (decide (s < t))
    | .list xs, .list ys => pyLtList xs ys
    | _, _ => .error ()

def pyLtList : List PyVal → List PyVal → Except Unit Bool
  | [], [] => .ok false
  | [], _ :: _ => .ok true
  | _ :: _, [] => .ok false
  | x :: xs, y :: ys => if pyEq x y then pyLtList xs ys else pyLt x y
end

mutual
/-- Python <= (a <= b iff a < b or a == b along the same comparison walk). -/
def pyLe (a b : PyVal) : Except Unit Bool :=
  if a.isNumber && b.isNumber then .ok (PyFloat.leF (toF a) (toF b))
  else
    match a, b with
    | .str s, .str t => .ok (decide (s < t) || decide (s = t))
    | .list xs, .list ys => pyLeList xs ys
    | _, _ => .error ()

def pyLeList : List PyVal → List PyVal → Except Unit Bool
  | [], [] => .ok true
  | [], _ :: _ => .ok true
  | _ :: _, [] => .ok false
  | x :: xs, y :: ys => if pyEq x y then pyLeList xs ys else pyLt x y
end

/-- Python a > b, which for the modelled universe is b < a. -/
def pyGt (a b : PyVal) : Except Unit Bool := pyLt b a

/-- Python a >= b, which for the modelled universe is b <= a. -/
def pyGe (a b : PyVal) : Except Unit Bool := pyLe b a

/-- Result of a comparison inside the try block of evaluate_condition:
a TypeError is caught and yields False. -/
def catchTypeError : Except Unit Bool → Bool
  | .ok b => b
  | .error _ => false

/-!
Processor (src/processor.py).

evaluate_condition, apply_conditions and process_data are translated
directly.  apply_path delegates the match search to the external
jsonpath_ng engine; following the specification (which fixes the grammar
and the restricted dotted-path subset as the contract, not the engine),
the match search is modelled from the spec while the collapse logic around
it is translated from processor.py lines 67-88.
-/

/-- Segment of a restricted dotted path: a field name or the wildcard. -/
inductive Seg where
  | key (k : String)
  | star
deriving DecidableEq, Repr

/-- Python dict lookup by a string key (item.get / mapping focus):
first entry whose key is the equal string. -/
def dictFind (kvs : List (PyKey × PyVal)) (k : String) : Option PyVal :=
  match kvs with
  | [] => Option.none
  | (PyKey.str s, v) :: tl => if s = k then some v else dictFind tl k
  | _ :: tl => dictFind tl k

/-- Split a character list into the dot-separated segments, leftmost
first: the structural equivalent of str.split(".") (an empty string gives
one empty segment). -/
def splitDotsChars : List Char → List String
  | [] => [("")]
  | c :: rest =>
      match splitDotsChars rest with
      | [] => [String.mk [c]]
      | s :: tl =>
          if c = Char.ofNat 46 then ("") :: s :: tl
          else String.mk (c :: s.data) :: tl

/-- str.split(".") on a path string. -/
def splitDots (p : String) : List String :=
  splitDotsChars p.data

/-- Modelled from the spec: parsing of the restricted dotted-path
expression handed to jsonpath_ng (the repository delegates this to the
external engine, which is not part of the sources).  Section 4.3 fixes the
language: dot-separated field names, at most one wildcard, always final;
an empty segment or a non-final wildcard is malformed and raises
ProcessorError naming the expression. -/
def parsePath (p : String) : Except String (List Seg) :=
  let parts := splitDots p
  if parts.any (fun s => s = "") then
    .error ("Invalid JSONPath expression: " ++ p)
  else if parts.dropLast.any (fun s => s = "*") then
    .error ("Invalid JSONPath expression: " ++ p)
  else
    .ok (parts.map (fun s => if s = "*" then Seg.star else Seg.key s))

/-- Modelled from the spec: the match search of the external jsonpath_ng
engine, restricted to the subset of section 4.3.  Walk segments left to
right; a field segment requires a Mapping focus and a missing key yields
no match (never raises); the wildcard requires a Sequence focus and
evaluates the remaining path independently per element, concatenating the
results in encounter order. -/
def findMatches (v : PyVal) : List Seg → List PyVal
  | [] => [v]
  | Seg.key k :: rest =>
      match v with
      | .dict kvs =>
          match dictFind kvs k with
          | some v2 => findMatches v2 rest
          | Option.none => []
      | _ => []
  | Seg.star :: rest =>
      match v with
      | .list xs => (xs.map (fun e => findMatches e rest)).flatten
      | _ => []

/-- Collapse rule of apply_path (processor.py lines 76-88): no match gives
an empty list, a single match gives the value itself, several matches give
the list of values. -/
def collapse : List PyVal → PyVal
  | [] => .list []
  | [v] => v
  | vs => .list vs

/-- apply_path (processor.py lines 47-95).  A None or empty path returns
the data unchanged; otherwise the path is parsed (an invalid expression
raises ProcessorError), the matches are collected and collapsed. -/
def apply_path (data : PyVal) (path : Option String) : Except String PyVal :=
  match path with
  | Option.none => .ok data
  | some p =>
      if p = "" then .ok data
      else
        match parsePath p with
        | .error e => .error e
        | .ok segs => .ok (collapse (findMatches data segs))

/-- A parsed filter condition (parser.py Condition TypedDict). -/
structure Condition where
  field : String
  op : String
  value : PyVal

/-- evaluate_condition (processor.py lines 98-158).  The single Python
comparison chain sits inside a try block catching TypeError; it is split
here over the two coercion cases (both numeric, or not), which is the same
case analysis the chain performs after the coercion assignment.  An
unsupported operator raises ProcessorError (which the except TypeError
clause does not catch). -/
def evaluate_condition (value : PyVal) (op : String) (expected : PyVal) :
    Except String Bool :=
  if value.isNone || expected.isNone then
    if op = "==" then .ok (pyEq value expected)
    else if op = "!=" then .ok (!pyEq value expected)
    else .ok false
  else if value.isNumber && expected.isNumber then
    if op = "==" then .ok (PyFloat.eqF (toF value) (toF expected))
    else if op = "!=" then .ok (!PyFloat.eqF (toF value) (toF expected))
    else if op = ">" then .ok (PyFloat.ltF (toF expected) (toF value))
    else if op = "<" then .ok (PyFloat.ltF (toF value) (toF expected))
    else if op = ">=" then .ok (PyFloat.leF (toF expected) (toF value))
    else if op = "<=" then .ok (PyFloat.leF (toF value) (toF expected))
    else .error ("Unsupported operator: " ++ op)
  else
    if op = "==" then .ok (pyEq value expected)
    else if op = "!=" then .ok (!pyEq value expected)
    else if op = ">" then .ok (catchTypeError (pyGt value expected))
    else if op = "<" then .ok (catchTypeError (pyLt value expected))
    else if op = ">=" then .ok (catchTypeError (pyGe value expected))
    else if op = "<=" then .ok (catchTypeError (pyLe value expected))
    else .error ("Unsupported operator: " ++ op)

/-- item.get(field) on a record: missing field yields None.  Only dict
items reach this call in apply_conditions. -/
def itemGet (item : PyVal) (field : String) : PyVal :=
  match item with
  | .dict kvs =>
      match dictFind kvs field with
      | some v => v
      | Option.none => .none
  | _ => .none

/-- The AND-combined condition check of apply_conditions: conditions are
evaluated in order, stopping at the first false one; an evaluation error
propagates. -/
def matchesAll (item : PyVal) : List Condition → Except String Bool
  | [] => .ok true
  | c :: tl =>
      match evaluate_condition (itemGet item c.field) c.op c.value with
      | .error e => .error e
      | .ok true => matchesAll item tl
      | .ok false => .ok false

/-- The filtering loop of apply_conditions: non-dict items are skipped,
dict items are kept iff every condition holds. -/
def filterRecords : List PyVal → List Condition → Except String (List PyVal)
  | [], _ => .ok []
  | item :: tl, conds =>
      match item with
      | .dict kvs =>
          match matchesAll (.dict kvs) conds with
          | .error e => .error e
          | .ok b =>
              match filterRecords tl conds with
              | .error e => .error e
              | .ok rest => .ok (if b then .dict kvs :: rest else rest)
      | _ => filterRecords tl conds

/-- Coercion of a non-sequence filter input (processor.py lines 185-188
and 257-258): a list passes through, a lone dict is wrapped into a
one-element list, anything else degrades to empty. -/
def coerceRecords : PyVal → List PyVal
  | .list xs => xs
  | .dict kvs => [.dict kvs]
  | _ => []

/-- apply_conditions (processor.py lines 161-221).  An empty condition
list returns the data unchanged; otherwise the input is coerced to a
record list and filtered. -/
def apply_conditions (data : PyVal) (conds : List Condition) :
    Except String PyVal :=
  if conds.isEmpty then .ok data
  else
    match filterRecords (coerceRecords data) conds with
    | .error e => .error e
    | .ok rs => .ok (.list rs)

/-- process_data (processor.py lines 224-262): path extraction first, then,
only if conditions are present, coercion to record-sequence form followed
by apply_conditions. -/
def process_data (data : PyVal) (path : Option String)
    (conds : List Condition) : Except String PyVal :=
  match apply_path data path with
  | .error e => .error e
  | .ok extracted =>
      if conds.isEmpty then .ok extracted
      else
        match apply_conditions (.list (coerceRecords extracted)) conds with
        | .error e => .error e
        | .ok out => .ok out

/-!
Query parser (src/grammar.py, src/parser.py).

The grammar is processed by the external Lark generator, which is not part
of the sources; the specification fixes the grammar itself as the contract.
The parse tree shapes below are therefore modelled from the spec grammar
(section 4.2), while every transformer method of QueryTransformer
(parser.py lines 70-175) is translated directly and applied to those
shapes.  Literal tokens are carried with their denotation: a numeric token
by its exact value (float() of a decimal numeral is modelled exactly), a
string token by its raw quoted text.
-/

/-- Modelled from the spec: a value literal of the grammar rule
value := quoted_string | signed_number | true | false | null. -/
inductive LitAST where
  | num (q : ℚ)
  | str (raw : String)
  | tru
  | fls
  | nul
deriving DecidableEq, Repr

/-- Modelled from the spec: one condition of the where clause,
condition := NAME operator value.  This is the grammar shape only: Lark
delivers the field and the value to the transformer wrapped in
untransformed Tree nodes (see larkFieldChild / larkValueChild below),
because grammar.py declares them as the single-child rules field and
value with no inline marker and QueryTransformer has no methods for
them. -/
structure CondAST where
  fld : String
  op : String
  value : LitAST
deriving DecidableEq, Repr

/-- Modelled from the spec: a path-bracket expression,
path_expr := NAME ("." NAME)* ("." "*")?. -/
structure PathAST where
  first : String
  restNames : List String
  wildcard : Bool
deriving DecidableEq, Repr

/-- Modelled from the spec: file_path := (bare | quoted) path_bracket?. -/
structure FileAST where
  file : String
  bracket : Option PathAST
deriving DecidableEq, Repr

/-- Modelled from the spec: query := "from" file_path "to" file_path
("where" condition_list)?. -/
structure QueryAST where
  source : FileAST
  dest : FileAST
  whereClause : Option (List CondAST)
deriving DecidableEq, Repr

/-- PathSpec TypedDict (parser.py lines 44-53). -/
structure PathSpec where
  file : String
  path : Option String
deriving DecidableEq, Repr

/-- QueryTransformer.SIGNED_NUMBER (parser.py line 85): every numeric token
becomes float(token.value), a float, regardless of integer-ness. -/
def transformSignedNumber (q : ℚ) : PyVal := .float (.finite q)

/-- QueryTransformer.ESCAPED_STRING (parser.py line 81): the surrounding
quotes (first and last character of the raw token) are stripped, nothing
else is processed. -/
def transformEscapedString (raw : String) : String :=
  (raw.drop 1).dropRight 1

/-- Transformation of a literal token to its condition value, combining the
token methods of QueryTransformer (parser.py lines 85-99). -/
def transformValue : LitAST → PyVal
  | .num q => transformSignedNumber q
  | .str raw => .str (transformEscapedString raw)
  | .tru => .bool true
  | .fls => .bool false
  | .nul => .none

/-- A runtime value inside the Lark transform: either an already
transformed leaf (token callbacks always run, producing Python values) or
a rule node left untransformed because QueryTransformer defines no method
for that rule name — Lark keeps such a rule as a Tree node, with its
anonymous string tokens (dots, brackets, the star, keywords) filtered
out. -/
inductive LarkVal where
  | py (v : PyVal)
  | tree (data : String) (children : List LarkVal)

/-- Python str() of a Lark child, as applied by
QueryTransformer.path_expression (parser.py line 153).  A transformed
token is its own value rendering; an untransformed Tree has no custom
str and falls back to the Tree repr, whose exact text varies with the
Lark version and is carried here in the stable shape Tree(data, ...) —
every version agrees it starts with Tree( and is never the one-character
strings "*" or ".". -/
def larkStr : LarkVal → String
  | .py (.str s) => s
  | .py (.bool b) => if b then "True" else "False"
  | .py (.float f) => floatStr f
  | .py (.int n) => toString n
  | .py .none => "None"
  | .py _ => ""
  | .tree data _ => "Tree(" ++ data ++ ", ...)"

/-- The single-child rule field: NAME (grammar.py line 41) as delivered to
the condition callback: QueryTransformer has no field method, so Lark
keeps Tree(field, [name]) with only the NAME token transformed. -/
def larkFieldChild (name : String) : LarkVal :=
  .tree ("field") [.py (.str name)]

/-- The single-child rule value (grammar.py lines 44-48) as delivered to
the condition callback: QueryTransformer has no value method, so Lark
keeps Tree(value, [lit]) with only the literal token transformed. -/
def larkValueChild (lit : LitAST) : LarkVal :=
  .tree ("value") [.py (transformValue lit)]

/-- The record QueryTransformer.condition actually assembles (parser.py
line 114): children[0], children[1] and children[2] of the condition
rule, whatever Lark values those are. -/
structure CondRecord where
  field : LarkVal
  op : LarkVal
  value : LarkVal

/-- QueryTransformer.condition (parser.py lines 105-114) applied to the
children Lark delivers for condition := field OP value: the field and the
value arrive as untransformed Tree nodes, the OP token as a string. -/
def transformCondition (c : CondAST) : CondRecord :=
  { field := larkFieldChild c.fld
    op := .py (.str c.op)
    value := larkValueChild c.value }

/-- QueryResult TypedDict (parser.py lines 56-67), holding the condition
records as assembled. -/
structure QueryResult where
  source : PathSpec
  dest : PathSpec
  conditions : List CondRecord

/-- The children Lark hands to QueryTransformer.path_expression for
path_expression := NAME ("." NAME)* ("." array_wildcard)?: the NAME
tokens transformed to strings, the anonymous dot tokens filtered out,
and, when present, the array_wildcard rule left untransformed
(QueryTransformer has no array_wildcard method) as a childless Tree
node. -/
def larkPathChildren (ast : PathAST) : List LarkVal :=
  (ast.first :: ast.restNames).map (fun n => LarkVal.py (PyVal.str n))
    ++ (if ast.wildcard then [LarkVal.tree ("array_wildcard") []] else [])

/-- QueryTransformer.path_expression (parser.py lines 144-160), verbatim:
dot children are dropped, then, when the last child is the wildcard star,
the star is appended to the previous part (parts[-2] += "*") and popped,
and the parts are joined with dots.  When parts = ["*"] Python would raise
IndexError on parts[-2]; the grammar guarantees a NAME before the wildcard
so that case is unreachable and left as the identity here. -/
def path_expression (children : List String) : String :=
  let parts := children.filter (fun c => c ≠ ".")
  let parts2 :=
    if parts.getLast? = some ("*") then
      match parts.dropLast.reverse with
      | [] => parts.dropLast
      | x :: rev => ((x ++ "*") :: rev).reverse
    else parts
  String.intercalate (".") parts2

/-- QueryTransformer.file_path (parser.py lines 120-131) composed with
path_bracket (lines 133-142): the optional bracket child is the
path_expression string. -/
def transformFilePath (ast : FileAST) : PathSpec :=
  { file := ast.file
    path := ast.bracket.map (fun p =>
      path_expression ((larkPathChildren p).map larkStr)) }

/-- QueryTransformer.query (parser.py lines 162-175) composed with
condition_list (lines 116-118): a missing where clause yields empty
conditions. -/
def transformQuery (ast : QueryAST) : QueryResult :=
  { source := transformFilePath ast.source
    dest := transformFilePath ast.dest
    conditions :=
      match ast.whereClause with
      | some cs => cs.map transformCondition
      | Option.none => [] }

/-!
Validators (src/validation.py).

Each validator is a side-effect-free depth-first walk accumulating issues
on a mutable ValidationResult; the walk is modelled as returning the
chronological list of issues, from which the errors and warnings lists are
the severity-filtered projections (add_error / add_warning append to the
two lists in walk order).  Message texts follow the sources with value
reprs elided; no claim inspects message text.
-/

/-- Severity of a validation issue (validation.py lines 27-31). -/
inductive Severity where
  | error
  | warning
deriving DecidableEq, Repr

/-- ValidationIssue (validation.py lines 40-52). -/
structure ValidationIssue where
  path : String
  message : String
  severity : Severity
deriving DecidableEq, Repr

/-- ValidationResult (validation.py lines 55-91). -/
structure ValidationResult where
  errors : List ValidationIssue
  warnings : List ValidationIssue
deriving DecidableEq, Repr

/-- ValidationResult.is_valid (validation.py lines 67-73). -/
def ValidationResult.is_valid (r : ValidationResult) : Bool :=
  r.errors.isEmpty

/-- Assemble a ValidationResult from the chronological issue list of a
walk. -/
def mkResult (issues : List ValidationIssue) : ValidationResult :=
  { errors := issues.filter (fun i => i.severity = Severity.error)
    warnings := issues.filter (fun i => i.severity = Severity.warning) }

mutual
/-- JSONValidator._walk (validation.py lines 133-164): null, bool, int and
str pass; floats must be finite; dict keys must be strings; temporal and
Decimal leaves are not valid JSON values. -/
def jsonWalk : PyVal → String → List ValidationIssue
  | .none, _ => []
  | .bool _, _ => []
  | .int _, _ => []
  | .str _, _ => []
  | .float f, p =>
      if f.isFinite then []
      else [⟨p, "non-finite float " ++ floatStr f, Severity.error⟩]
  | .dict kvs, p => jsonWalkEntries kvs p
  | .list xs, p => jsonWalkElems xs p 0
  | .datetime, p => [⟨p, "is not a valid JSON value", Severity.error⟩]
  | .date, p => [⟨p, "is not a valid JSON value", Severity.error⟩]
  | .time, p => [⟨p, "is not a valid JSON value", Severity.error⟩]
  | .decimal _, p => [⟨p, "is not a valid JSON value", Severity.error⟩]

def jsonWalkEntries : List (PyKey × PyVal) → String → List ValidationIssue
  | [], _ => []
  | (k, v) :: tl, p =>
      (if k matches PyKey.str _ then []
       else [⟨p, "non-string key " ++ keyStr k, Severity.error⟩])
        ++ jsonWalk v (p ++ "." ++ keyStr k)
        ++ jsonWalkEntries tl p

def jsonWalkElems : List PyVal → String → Nat → List ValidationIssue
  | [], _, _ => []
  | v :: tl, p, i =>
      jsonWalk v (p ++ "[" ++ toString i ++ "]") ++ jsonWalkElems tl p (i + 1)
end

/-- The TOML homogeneity test (validation.py lines 216-218): all elements
must be instances of the runtime type of the first element. -/
def tomlHomogeneous : List PyVal → Bool
  | [] => true
  | x0 :: rest => (x0 :: rest).all (fun e => isinst e (typeOf x0))

mutual
/-- TOMLValidator._walk (validation.py lines 191-230): like JSON but the
temporal leaves also pass, Decimal does not, and a non-empty list whose
elements are not all instances of the first element's type gets a warning
(not an error) at the list's own path before its elements are walked. -/
def tomlWalk : PyVal → String → List ValidationIssue
  | .none, _ => []
  | .bool _, _ => []
  | .int _, _ => []
  | .str _, _ => []
  | .datetime, _ => []
  | .date, _ => []
  | .time, _ => []
  | .float f, p =>
      if f.isFinite then []
      else [⟨p, "non-finite float " ++ floatStr f, Severity.error⟩]
  | .dict kvs, p => tomlWalkEntries kvs p
  | .list xs, p =>
      (if tomlHomogeneous xs then []
       else [⟨p, "all elements in list must be of the same type (TOML requirement)",
              Severity.warning⟩])
        ++ tomlWalkElems xs p 0
  | .decimal _, p => [⟨p, "is not a valid TOML value", Severity.error⟩]

def tomlWalkEntries : List (PyKey × PyVal) → String → List ValidationIssue
  | [], _ => []
  | (k, v) :: tl, p =>
      (if k matches PyKey.str _ then []
       else [⟨p, "non-string key " ++ keyStr k, Severity.error⟩])
        ++ tomlWalk v (p ++ "." ++ keyStr k)
        ++ tomlWalkEntries tl p

def tomlWalkElems : List PyVal → String → Nat → List ValidationIssue
  | [], _, _ => []
  | v :: tl, p, i =>
      tomlWalk v (p ++ "[" ++ toString i ++ "]") ++ tomlWalkElems tl p (i + 1)
end

mutual
/-- YAMLValidator._walk (validation.py lines 256-292): accepts int, str,
bool, datetime, date and Decimal leaves (a bare time object falls to the
invalid-value error); non-finite floats stay hard errors; a non-string
dict key produces only a warning. -/
def yamlWalk : PyVal → String → List ValidationIssue
  | .none, _ => []
  | .bool _, _ => []
  | .int _, _ => []
  | .str _, _ => []
  | .datetime, _ => []
  | .date, _ => []
  | .decimal _, _ => []
  | .float f, p =>
      if f.isFinite then []
      else [⟨p, "non-finite float " ++ floatStr f, Severity.error⟩]
  | .dict kvs, p => yamlWalkEntries kvs p
  | .list xs, p => yamlWalkElems xs p 0
  | .time, p => [⟨p, "is not a valid YAML value", Severity.error⟩]

def yamlWalkEntries : List (PyKey × PyVal) → String → List ValidationIssue
  | [], _ => []
  | (k, v) :: tl, p =>
      (if k matches PyKey.str _ then []
       else [⟨p, "non-string key " ++ keyStr k ++ ". Not recommended for YAML",
              Severity.warning⟩])
        ++ yamlWalk v (p ++ "." ++ keyStr k)
        ++ yamlWalkEntries tl p

def yamlWalkElems : List PyVal → String → Nat → List ValidationIssue
  | [], _, _ => []
  | v :: tl, p, i =>
      yamlWalk v (p ++ "[" ++ toString i ++ "]") ++ yamlWalkElems tl p (i + 1)
end

mutual
/-- XMLValidator._walk (validation.py lines 317-347): dict keys must be
strings, containers are walked, and every leaf only has to be convertible
to a string, which never fails on the modelled universe (str() succeeds on
None, bools, ints, floats including the non-finite ones, strings, temporal
values and Decimals), so leaves yield no issues. -/
def xmlWalk : PyVal → String → List ValidationIssue
  | .dict kvs, p => xmlWalkEntries kvs p
  | .list xs, p => xmlWalkElems xs p 0
  | _, _ => []

def xmlWalkEntries : List (PyKey × PyVal) → String → List ValidationIssue
  | [], _ => []
  | (k, v) :: tl, p =>
      (if k matches PyKey.str _ then []
       else [⟨p, "non-string key (XML tag/attr must be str)", Severity.error⟩])
        ++ xmlWalk v (p ++ "." ++ keyStr k)
        ++ xmlWalkEntries tl p

def xmlWalkElems : List PyVal → String → Nat → List ValidationIssue
  | [], _, _ => []
  | v :: tl, p, i =>
      xmlWalk v (p ++ "[" ++ toString i ++ "]") ++ xmlWalkElems tl p (i + 1)
end

/-- JSONValidator.validate (validation.py lines 119-131). -/
def JSONValidator.validate (data : PyVal) : ValidationResult :=
  mkResult (jsonWalk data ("$"))

/-- TOMLValidator.validate (validation.py lines 177-189). -/
def TOMLValidator.validate (data : PyVal) : ValidationResult :=
  mkResult (tomlWalk data ("$"))

/-- YAMLValidator.validate (validation.py lines 242-254). -/
def YAMLValidator.validate (data : PyVal) : ValidationResult :=
  mkResult (yamlWalk data ("$"))

/-- XMLValidator.validate (validation.py lines 303-315). -/
def XMLValidator.validate (data : PyVal) : ValidationResult :=
  mkResult (xmlWalk data ("$"))

/-!
Positions in a data tree and the path string a validator walk builds when
reaching them, used to state claims about "the value at some path".
-/

/-- One step into a data tree: the i-th dict entry or the i-th list
element. -/
inductive Step where
  | fld (i : Nat)
  | idx (i : Nat)
deriving DecidableEq, Repr

/-- The subvalue at a position, when the position exists. -/
def valueAt : PyVal → List Step → Option PyVal
  | v, [] => some v
  | .dict kvs, Step.fld i :: rest =>
      match kvs.get? i with
      | some kv => valueAt kv.2 rest
      | Option.none => Option.none
  | .list xs, Step.idx i :: rest =>
      match xs.get? i with
      | some v => valueAt v rest
      | Option.none => Option.none
  | _, _ => Option.none

/-- The path string a validator builds when walking from root path p down
to a position. -/
def pathAt : PyVal → String → List Step → Option String
  | _, p, [] => some p
  | .dict kvs, p, Step.fld i :: rest =>
      match kvs.get? i with
      | some kv => pathAt kv.2 (p ++ "." ++ keyStr kv.1) rest
      | Option.none => Option.none
  | .list xs, p, Step.idx i :: rest =>
      match xs.get? i with
      | some v => pathAt v (p ++ "[" ++ toString i ++ "]") rest
      | Option.none => Option.none
  | _, _, _ => Option.none

/-!
Theorems.  Each claim of the specification gets one theorem (with a
counterexample theorem where the claim fails as stated), preceded by
shared helper lemmas.
-/

/-- Helper: on the both-numeric branch, evaluate_condition coerces both
operands with float() and compares the resulting doubles, for each of the
six operators. -/
theorem evalCondNumeric (v e : PyVal) (hv : v.isNumber = true)
    (he : e.isNumber = true) :
    evaluate_condition v ("==") e = .ok (PyFloat.eqF (toF v) (toF e)) ∧
    evaluate_condition v ("!=") e = .ok (!PyFloat.eqF (toF v) (toF e)) ∧
    evaluate_condition v (">") e = .ok (PyFloat.ltF (toF e) (toF v)) ∧
    evaluate_condition v ("<") e = .ok (PyFloat.ltF (toF v) (toF e)) ∧
    evaluate_condition v (">=") e = .ok (PyFloat.leF (toF e) (toF v)) ∧
    evaluate_condition v ("<=") e = .ok (PyFloat.leF (toF v) (toF e)) := by
  cases v <;> cases e <;> simp_all [PyVal.isNumber] <;>
    exact ⟨rfl, rfl, rfl, rfl, rfl, rfl⟩

/-- C4: with a null on either side, evaluate_condition never raises: the
equality operator compares null-equality (true exactly when both sides are
null), the inequality operator its negation, and every other operator
string yields false. -/
theorem c4_null_comparisons (value expected : PyVal) (op : String)
    (h : (value.isNone || expected.isNone) = true) :
    evaluate_condition value op expected =
      .ok (if op = "==" then value.isNone && expected.isNone
           else if op = "!=" then !(value.isNone && expected.isNone)
           else false) := by
  have hq : pyEq value expected = (value.isNone && expected.isNone) := by
    cases value <;> cases expected <;>
      simp_all [pyEq, PyVal.isNone, PyVal.isNumber]
  unfold evaluate_condition
  rw [h, hq]
  by_cases h1 : op = "==" <;> by_cases h2 : op = "!=" <;> simp [h1, h2]

/-- C4 witness: evaluateCondition(null, ==, null) is true and
evaluateCondition(null, >, 5) is false, without raising. -/
theorem c4_null_comparisons_witness :
    evaluate_condition PyVal.none ("==") PyVal.none = .ok true ∧
    evaluate_condition PyVal.none (">") (PyVal.int 5) = .ok false := by
  constructor
  · have h := c4_null_comparisons PyVal.none PyVal.none ("==") (by decide)
    simpa [PyVal.isNone] using h
  · have h := c4_null_comparisons PyVal.none (PyVal.int 5) (">") (by decide)
    simpa [PyVal.isNone] using h

/-- C5: two numeric (non-null) operands are both coerced to double and
compared numerically under each of the six operators; and on operands of
incompatible non-numeric types every ordering operator catches the
TypeError and returns false instead of raising. -/
theorem c5_numeric_coercion :
    (∀ v e : PyVal, v.isNumber = true → e.isNumber = true →
      evaluate_condition v ("==") e = .ok (PyFloat.eqF (toF v) (toF e)) ∧
      evaluate_condition v ("!=") e = .ok (!PyFloat.eqF (toF v) (toF e)) ∧
      evaluate_condition v (">") e = .ok (PyFloat.ltF (toF e) (toF v)) ∧
      evaluate_condition v ("<") e = .ok (PyFloat.ltF (toF v) (toF e)) ∧
      evaluate_condition v (">=") e = .ok (PyFloat.leF (toF e) (toF v)) ∧
      evaluate_condition v ("<=") e = .ok (PyFloat.leF (toF v) (toF e))) ∧
    (∀ a b : PyVal, a.isNone = false → b.isNone = false →
      (a.isNumber && b.isNumber) = false →
      (pyGt a b = .error () → evaluate_condition a (">") b = .ok false) ∧
      (pyLt a b = .error () → evaluate_condition a ("<") b = .ok false) ∧
      (pyGe a b = .error () → evaluate_condition a (">=") b = .ok false) ∧
      (pyLe a b = .error () → evaluate_condition a ("<=") b = .ok false)) := by
  constructor
  · exact fun v e hv he => evalCondNumeric v e hv he
  · intro a b ha hb hn
    refine ⟨?_, ?_, ?_, ?_⟩ <;> intro herr <;>
      simp [evaluate_condition, ha, hb, hn, herr, catchTypeError]

/-- C5 witness: 30 == 30.0 holds, 30.5 > 30 holds, and ordering a string
against a number returns false rather than raising. -/
theorem c5_numeric_coercion_witness :
    evaluate_condition (PyVal.int 30) ("==") (PyVal.float (.finite 30)) =
      .ok true ∧
    evaluate_condition (PyVal.float (.finite (mkRat 61 2))) (">")
      (PyVal.int 30) = .ok true ∧
    evaluate_condition (PyVal.str ("a")) (">") (PyVal.int 5) = .ok false := by
  refine ⟨?_, ?_, ?_⟩
  · have h := (c5_numeric_coercion.1 (PyVal.int 30)
      (PyVal.float (.finite 30)) (by decide) (by decide)).1
    rw [h]; rfl
  · have h := (c5_numeric_coercion.1 (PyVal.float (.finite (mkRat 61 2)))
      (PyVal.int 30) (by decide) (by decide)).2.2.1
    rw [h]; rfl
  · have h := (c5_numeric_coercion.2 (PyVal.str ("a")) (PyVal.int 5)
      (by decide) (by decide) (by decide)).1
    exact h (by rfl)

/-- C6 counterexample: with a null operand, an operator outside the six
supported symbols does not raise ProcessorError; the null branch returns
false for it. -/
theorem c6_unknown_op_counterexample :
    evaluate_condition PyVal.none ("in") (PyVal.int 5) = .ok false ∧
    ("in") ∉ ([("=="), ("!="), (">"), ("<"), (">="), ("<=")] : List String) :=
  ⟨rfl, by decide⟩

/-- C6 amended: for every pair of NON-NULL operands, an operator outside
the six-symbol set raises ProcessorError (the raise sits inside the try
block but is not a TypeError, so it propagates); with a null operand the
null branch returns false instead. -/
theorem c6_unknown_op_raises (v e : PyVal) (op : String)
    (hv : v.isNone = false) (he : e.isNone = false)
    (h : op ∉ ([("=="), ("!="), (">"), ("<"), (">="), ("<=")] : List String)) :
    evaluate_condition v op e = .error ("Unsupported operator: " ++ op) := by
  simp only [List.mem_cons, List.mem_singleton, not_or] at h
  obtain ⟨h1, h2, h3, h4, h5, h6, -⟩ := h
  by_cases hn : (v.isNumber && e.isNumber) = true <;>
    simp [evaluate_condition, hv, he, hn, h1, h2, h3, h4, h5, h6]

/-- C6 witness: a hand-built condition with operator "in" on two integers
raises ProcessorError. -/
theorem c6_unknown_op_raises_witness :
    evaluate_condition (PyVal.int 1) ("in") (PyVal.int 2) =
      .error ("Unsupported operator: in") := by
  have h := c6_unknown_op_raises (PyVal.int 1) (PyVal.int 2) ("in")
    (by decide) (by decide) (by decide)
  simpa using h

/-- C10: boolean operands compared against numbers take the numeric
coercion branch, where float() maps true to 1.0 and false to 0.0, for all
six operators: booleans are not a distinct kind for comparison purposes. -/
theorem c10_bool_as_number (b : Bool) (e : PyVal) (he : e.isNumber = true) :
    evaluate_condition (PyVal.bool b) ("==") e =
      .ok (PyFloat.eqF (.finite (if b then 1 else 0)) (toF e)) ∧
    evaluate_condition (PyVal.bool b) ("!=") e =
      .ok (!PyFloat.eqF (.finite (if b then 1 else 0)) (toF e)) ∧
    evaluate_condition (PyVal.bool b) (">") e =
      .ok (PyFloat.ltF (toF e) (.finite (if b then 1 else 0))) ∧
    evaluate_condition (PyVal.bool b) ("<") e =
      .ok (PyFloat.ltF (.finite (if b then 1 else 0)) (toF e)) ∧
    evaluate_condition (PyVal.bool b) (">=") e =
      .ok (PyFloat.leF (toF e) (.finite (if b then 1 else 0))) ∧
    evaluate_condition (PyVal.bool b) ("<=") e =
      .ok (PyFloat.leF (.finite (if b then 1 else 0)) (toF e)) :=
  evalCondNumeric (PyVal.bool b) e rfl he

/-- C10 witness: evaluateCondition(true, ==, 1.0) is true and
evaluateCondition(true, >, 0.5) is true. -/
theorem c10_bool_as_number_witness :
    evaluate_condition (PyVal.bool true) ("==") (PyVal.float (.finite 1)) =
      .ok true ∧
    evaluate_condition (PyVal.bool true) (">")
      (PyVal.float (.finite (mkRat 1 2))) = .ok true := by
  constructor
  · have h := (c10_bool_as_number true (PyVal.float (.finite 1)) (by decide)).1
    rw [h]; rfl
  · have h := (c10_bool_as_number true (PyVal.float (.finite (mkRat 1 2)))
      (by decide)).2.2.1
    rw [h]; rfl

/-- Helper: for a well-formed path expression, apply_path collapses the
match list found for the parsed segments. -/
theorem apply_path_eval (d : PyVal) (p : String) (segs : List Seg)
    (h : parsePath p = .ok segs) :
    apply_path d (some p) = .ok (collapse (findMatches d segs)) := by
  have hp : p ≠ "" := by
    intro he
    subst he
    rw [show parsePath ("") = Except.error ("Invalid JSONPath expression: ")
      from rfl] at h
    exact Except.noConfusion h
  simp [apply_path, hp, h]

/-- C1: a null path and an empty path return the tree unchanged; for every
well-formed path expression, evaluation returns the collapse of the match
list and never raises — the unique match itself when there is exactly one,
the list of matches in encounter order when there are several, the empty
list when there are none — and any path against the empty mapping yields
the empty list without raising. -/
theorem c1_apply_path_collapse :
    (∀ d : PyVal, apply_path d Option.none = .ok d ∧
      apply_path d (some ("")) = .ok d) ∧
    (collapse [] = PyVal.list [] ∧ (∀ v : PyVal, collapse [v] = v) ∧
      ∀ (v w : PyVal) (tl : List PyVal),
        collapse (v :: w :: tl) = PyVal.list (v :: w :: tl)) ∧
    (∀ (d : PyVal) (p : String) (segs : List Seg), parsePath p = .ok segs →
      apply_path d (some p) = .ok (collapse (findMatches d segs))) ∧
    (∀ (p : String) (s : Seg) (rest : List Seg),
      parsePath p = .ok (s :: rest) →
      apply_path (PyVal.dict []) (some p) = .ok (PyVal.list [])) := by
  refine ⟨fun d => ⟨rfl, rfl⟩,
    ⟨rfl, fun v => rfl, fun v w tl => rfl⟩, apply_path_eval, ?_⟩
  intro p s rest h
  rw [apply_path_eval (PyVal.dict []) p (s :: rest) h]
  cases s <;> rfl

/-- C1 witness: path "name" against the mapping with name John and age 30
yields the bare scalar John; the same path against the empty mapping
yields the empty list. -/
theorem c1_apply_path_collapse_witness :
    apply_path (PyVal.dict [(PyKey.str ("name"), PyVal.str ("John")),
        (PyKey.str ("age"), PyVal.int 30)]) (some ("name")) =
      .ok (PyVal.str ("John")) ∧
    apply_path (PyVal.dict []) (some ("name")) = .ok (PyVal.list []) := by
  constructor
  · have h := c1_apply_path_collapse.2.2.1
      (PyVal.dict [(PyKey.str ("name"), PyVal.str ("John")),
        (PyKey.str ("age"), PyVal.int 30)])
      ("name") [Seg.key ("name")] (by rfl)
    rw [h]; rfl
  · exact c1_apply_path_collapse.2.2.2 ("name") (Seg.key ("name")) [] (by rfl)

/-- C2 (code bug): the program never yields the path string users.*.
Were the wildcard delivered as its literal star string, the fold
parts[-2] += "*" (parser.py line 157) would join the parts into users*
with no dot separator; under Lark's actual delivery the array_wildcard
rule stays an untransformed Tree whose str() falls back to the Tree repr,
so the fold never fires and the path becomes users. followed by that
repr.  Either output differs from the users.* that the transformer
docstring (parser.py line 151) and the repository test (parser_test.py
line 38) require.  The documented path users.* does evaluate to both
records of the users array. -/
theorem c2_wildcard_fold_bug :
    path_expression [("users"), ("*")] = "users*" ∧
    ("users*" : String) ≠ "users.*" ∧
    path_expression ((larkPathChildren
      { first := "users", restNames := [], wildcard := true }).map larkStr) =
      "users." ++ larkStr (LarkVal.tree ("array_wildcard") []) ∧
    path_expression ((larkPathChildren
      { first := "users", restNames := [], wildcard := true }).map larkStr) ≠
      "users.*" ∧
    apply_path (PyVal.dict [(PyKey.str ("users"),
        PyVal.list [PyVal.dict [(PyKey.str ("n"), PyVal.int 1)],
          PyVal.dict [(PyKey.str ("n"), PyVal.int 2)]])])
      (some ("users.*")) =
      .ok (PyVal.list [PyVal.dict [(PyKey.str ("n"), PyVal.int 1)],
        PyVal.dict [(PyKey.str ("n"), PyVal.int 2)]]) :=
  ⟨rfl, by decide, rfl, by decide, rfl⟩

/-- C3 (code bug): grammar.py wraps the condition parts in the
single-child rules field and value with no inline marker, and
QueryTransformer defines no field or value methods, so the condition
record assembled at parser.py line 114 holds untransformed Tree nodes:
for where age == 30 the field is Tree(field, [age]), not the identifier
string, and the value is Tree(value, [30.0]), not a bare float —
contradicting the Condition TypedDict declaration (parser.py lines
30-41) and the repository tests (parser_test.py lines 47-49), which
require "age" and the float 30.0. -/
theorem c3_condition_tree_wrappers :
    (transformCondition
      { fld := "age", op := "==", value := LitAST.num 30 }).field =
      LarkVal.tree ("field") [LarkVal.py (PyVal.str ("age"))] ∧
    (transformCondition
      { fld := "age", op := "==", value := LitAST.num 30 }).field ≠
      LarkVal.py (PyVal.str ("age")) ∧
    (transformCondition
      { fld := "age", op := "==", value := LitAST.num 30 }).op =
      LarkVal.py (PyVal.str ("==")) ∧
    (transformCondition
      { fld := "age", op := "==", value := LitAST.num 30 }).value =
      LarkVal.tree ("value") [LarkVal.py (PyVal.float (PyFloat.finite 30))] ∧
    (∀ v : PyVal,
      (transformCondition
        { fld := "age", op := "==", value := LitAST.num 30 }).value ≠
        LarkVal.py v) ∧
    (transformQuery
      { source := { file := "data.json", bracket := Option.none },
        dest := { file := "out.yaml", bracket := Option.none },
        whereClause :=
          some [{ fld := "age", op := "==", value := LitAST.num 30 }] }).conditions
      = [{ field := LarkVal.tree ("field") [LarkVal.py (PyVal.str ("age"))],
           op := LarkVal.py (PyVal.str ("==")),
           value := LarkVal.tree ("value")
             [LarkVal.py (PyVal.float (PyFloat.finite 30))] }] :=
  ⟨rfl, fun h => LarkVal.noConfusion h, rfl, rfl,
    fun _ h => LarkVal.noConfusion h, rfl⟩

/-- Helper: filtering with a non-empty condition list is invariant under
the record-sequence coercion (a list passes through it unchanged, so
apply_conditions applies the same wrap-mapping-else-empty policy whether
or not the caller pre-coerces). -/
theorem apply_conditions_coerce (v : PyVal) (conds : List Condition)
    (h : conds ≠ []) :
    apply_conditions v conds =
      apply_conditions (PyVal.list (coerceRecords v)) conds := by
  cases conds with
  | nil => exact absurd rfl h
  | cons c tl => rfl

/-- C9: with a non-empty condition list the same fixed coercion policy
acts in apply_conditions and in process_data — a lone mapping is wrapped
into a one-element sequence, any other non-sequence shape degrades to
empty — and process_data always performs path evaluation first, composing
exactly as apply_path followed by apply_conditions. -/
theorem c9_coercion_policy (conds : List Condition) (h : conds ≠ []) :
    (∀ kvs : List (PyKey × PyVal),
      coerceRecords (PyVal.dict kvs) = [PyVal.dict kvs]) ∧
    (∀ v : PyVal, typeOf v ≠ PyType.listT → typeOf v ≠ PyType.dictT →
      coerceRecords v = []) ∧
    (∀ v : PyVal, apply_conditions v conds =
      apply_conditions (PyVal.list (coerceRecords v)) conds) ∧
    (∀ (d : PyVal) (p : Option String), process_data d p conds =
      (apply_path d p).bind (fun ex => apply_conditions ex conds)) := by
  refine ⟨fun kvs => rfl, ?_, fun v => apply_conditions_coerce v conds h, ?_⟩
  · intro v h1 h2
    cases v <;> simp_all [typeOf, coerceRecords]
  · intro d p
    cases conds with
    | nil => exact absurd rfl h
    | cons c tl =>
        cases happly : apply_path d p with
        | error e => simp [process_data, happly, Except.bind]
        | ok ex =>
            simp only [process_data, happly, Except.bind]
            rw [← apply_conditions_coerce ex (c :: tl) (by simp)]
            cases hr : apply_conditions ex (c :: tl) <;> simp [hr]

/-- C9 witness: filtering two records through process_data with a null
path keeps exactly the record satisfying age >= 26 and active == true,
via path evaluation first and then apply_conditions. -/
theorem c9_coercion_policy_witness :
    process_data
      (PyVal.list [PyVal.dict [(PyKey.str ("age"), PyVal.int 30),
          (PyKey.str ("active"), PyVal.bool true)],
        PyVal.dict [(PyKey.str ("age"), PyVal.int 25),
          (PyKey.str ("active"), PyVal.bool true)]])
      Option.none
      [{ field := "age", op := ">=", value := PyVal.float (.finite 26) },
       { field := "active", op := "==", value := PyVal.bool true }] =
      .ok (PyVal.list [PyVal.dict [(PyKey.str ("age"), PyVal.int 30),
        (PyKey.str ("active"), PyVal.bool true)]]) := by
  have h := (c9_coercion_policy
    [{ field := "age", op := ">=", value := PyVal.float (.finite 26) },
     { field := "active", op := "==", value := PyVal.bool true }]
    (by simp)).2.2.2
    (PyVal.list [PyVal.dict [(PyKey.str ("age"), PyVal.int 30),
        (PyKey.str ("active"), PyVal.bool true)],
      PyVal.dict [(PyKey.str ("age"), PyVal.int 25),
        (PyKey.str ("active"), PyVal.bool true)]])
    Option.none
  rw [h]; rfl

/-- Helper: issues produced for the i-th entry value of a dict are among
the issues of the JSON entries walk. -/
theorem jsonWalkEntries_mem_of_get (kvs : List (PyKey × PyVal)) (p : String) :
    ∀ (i : Nat) (k : PyKey) (v : PyVal), kvs.get? i = some (k, v) →
      ∀ x ∈ jsonWalk v (p ++ "." ++ keyStr k), x ∈ jsonWalkEntries kvs p := by
  induction kvs with
  | nil => intro i k v hi; simp at hi
  | cons hd tl ih =>
      intro i k v hi x hx
      obtain ⟨k0, v0⟩ := hd
      cases i with
      | zero =>
          rw [List.get?_cons_zero] at hi
          simp only [Option.some.injEq, Prod.mk.injEq] at hi
          obtain ⟨rfl, rfl⟩ := hi
          simp only [jsonWalkEntries, List.mem_append]
          exact Or.inl (Or.inr hx)
      | succ n =>
          rw [List.get?_cons_succ] at hi
          have := ih n k v hi x hx
          simp only [jsonWalkEntries, List.mem_append]
          exact Or.inr this

/-- Helper: issues produced for the i-th element of a list are among the
issues of the JSON elements walk started at index j. -/
theorem jsonWalkElems_mem_of_get (p : String) :
    ∀ (xs : List PyVal) (j i : Nat) (v : PyVal), xs.get? i = some v →
      ∀ x ∈ jsonWalk v (p ++ "[" ++ toString (j + i) ++ "]"),
        x ∈ jsonWalkElems xs p j := by
  intro xs
  induction xs with
  | nil => intro j i v hi; simp at hi
  | cons hd tl ih =>
      intro j i v hi x hx
      cases i with
      | zero =>
          rw [List.get?_cons_zero] at hi
          injection hi with hi
          subst hi
          simp only [jsonWalkElems, List.mem_append]
          exact Or.inl (by simpa using hx)
      | succ n =>
          rw [List.get?_cons_succ] at hi
          have hidx : j + (n + 1) = (j + 1) + n := by omega
          rw [hidx] at hx
          have := ih (j + 1) n v hi x hx
          simp only [jsonWalkElems, List.mem_append]
          exact Or.inr this

/-- Helper: the JSON walk of the subtree at a position contributes all its
issues to the JSON walk of the whole tree. -/
theorem jsonWalk_mem_at :
    ∀ (pos : List Step) (t : PyVal) (p : String) (v : PyVal) (q : String),
      valueAt t pos = some v → pathAt t p pos = some q →
      ∀ x ∈ jsonWalk v q, x ∈ jsonWalk t p := by
  intro pos
  induction pos with
  | nil =>
      intro t p v q hv hq x hx
      rw [show valueAt t [] = some t from by cases t <;> rfl] at hv
      rw [show pathAt t p [] = some p from by cases t <;> rfl] at hq
      injection hv with hv
      injection hq with hq
      subst hv; subst hq
      exact hx
  | cons s rest ih =>
      intro t p v q hv hq x hx
      cases s with
      | fld i =>
          cases t <;> try exact Option.noConfusion hv
          case dict kvs =>
            cases hg : kvs.get? i with
            | none =>
                rw [show valueAt (PyVal.dict kvs) (Step.fld i :: rest) =
                  (match kvs.get? i with
                   | some kv => valueAt kv.2 rest
                   | Option.none => Option.none) from rfl, hg] at hv
                exact Option.noConfusion hv
            | some kv =>
                obtain ⟨k0, v0⟩ := kv
                rw [show valueAt (PyVal.dict kvs) (Step.fld i :: rest) =
                  (match kvs.get? i with
                   | some kv => valueAt kv.2 rest
                   | Option.none => Option.none) from rfl, hg] at hv
                rw [show pathAt (PyVal.dict kvs) p (Step.fld i :: rest) =
                  (match kvs.get? i with
                   | some kv => pathAt kv.2 (p ++ "." ++ keyStr kv.1) rest
                   | Option.none => Option.none) from rfl, hg] at hq
                have hx2 := ih v0 (p ++ "." ++ keyStr k0) v q hv hq x hx
                exact jsonWalkEntries_mem_of_get kvs p i k0 v0 hg x hx2
      | idx i =>
          cases t <;> try exact Option.noConfusion hv
          case list xs =>
            cases hg : xs.get? i with
            | none =>
                rw [show valueAt (PyVal.list xs) (Step.idx i :: rest) =
                  (match xs.get? i with
                   | some v2 => valueAt v2 rest
                   | Option.none => Option.none) from rfl, hg] at hv
                exact Option.noConfusion hv
            | some v0 =>
                rw [show valueAt (PyVal.list xs) (Step.idx i :: rest) =
                  (match xs.get? i with
                   | some v2 => valueAt v2 rest
                   | Option.none => Option.none) from rfl, hg] at hv
                rw [show pathAt (PyVal.list xs) p (Step.idx i :: rest) =
                  (match xs.get? i with
                   | some v2 => pathAt v2 (p ++ "[" ++ toString i ++ "]") rest
                   | Option.none => Option.none) from rfl, hg] at hq
                have hx2 := ih v0 (p ++ "[" ++ toString i ++ "]") v q hv hq x hx
                have hmem := jsonWalkElems_mem_of_get p xs 0 i v0 hg x
                  (by rwa [Nat.zero_add])
                exact hmem

/-- Helper: issues produced for the i-th entry value of a dict are among
the issues of the TOML entries walk. -/
theorem tomlWalkEntries_mem_of_get (kvs : List (PyKey × PyVal)) (p : String) :
    ∀ (i : Nat) (k : PyKey) (v : PyVal), kvs.get? i = some (k, v) →
      ∀ x ∈ tomlWalk v (p ++ "." ++ keyStr k), x ∈ tomlWalkEntries kvs p := by
  induction kvs with
  | nil => intro i k v hi; simp at hi
  | cons hd tl ih =>
      intro i k v hi x hx
      obtain ⟨k0, v0⟩ := hd
      cases i with
      | zero =>
          rw [List.get?_cons_zero] at hi
          simp only [Option.some.injEq, Prod.mk.injEq] at hi
          obtain ⟨rfl, rfl⟩ := hi
          simp only [tomlWalkEntries, List.mem_append]
          exact Or.inl (Or.inr hx)
      | succ n =>
          rw [List.get?_cons_succ] at hi
          have := ih n k v hi x hx
          simp only [tomlWalkEntries, List.mem_append]
          exact Or.inr this

/-- Helper: issues produced for the i-th element of a list are among the
issues of the TOML elements walk started at index j. -/
theorem tomlWalkElems_mem_of_get (p : String) :
    ∀ (xs : List PyVal) (j i : Nat) (v : PyVal), xs.get? i = some v →
      ∀ x ∈ tomlWalk v (p ++ "[" ++ toString (j + i) ++ "]"),
        x ∈ tomlWalkElems xs p j := by
  intro xs
  induction xs with
  | nil => intro j i v hi; simp at hi
  | cons hd tl ih =>
      intro j i v hi x hx
      cases i with
      | zero =>
          rw [List.get?_cons_zero] at hi
          injection hi with hi
          subst hi
          simp only [tomlWalkElems, List.mem_append]
          exact Or.inl (by simpa using hx)
      | succ n =>
          rw [List.get?_cons_succ] at hi
          have hidx : j + (n + 1) = (j + 1) + n := by omega
          rw [hidx] at hx
          have := ih (j + 1) n v hi x hx
          simp only [tomlWalkElems, List.mem_append]
          exact Or.inr this

/-- Helper: the TOML walk of the subtree at a position contributes all its
issues to the TOML walk of the whole tree. -/
theorem tomlWalk_mem_at :
    ∀ (pos : List Step) (t : PyVal) (p : String) (v : PyVal) (q : String),
      valueAt t pos = some v → pathAt t p pos = some q →
      ∀ x ∈ tomlWalk v q, x ∈ tomlWalk t p := by
  intro pos
  induction pos with
  | nil =>
      intro t p v q hv hq x hx
      rw [show valueAt t [] = some t from by cases t <;> rfl] at hv
      rw [show pathAt t p [] = some p from by cases t <;> rfl] at hq
      injection hv with hv
      injection hq with hq
      subst hv; subst hq
      exact hx
  | cons s rest ih =>
      intro t p v q hv hq x hx
      cases s with
      | fld i =>
          cases t <;> try exact Option.noConfusion hv
          case dict kvs =>
            cases hg : kvs.get? i with
            | none =>
                rw [show valueAt (PyVal.dict kvs) (Step.fld i :: rest) =
                  (match kvs.get? i with
                   | some kv => valueAt kv.2 rest
                   | Option.none => Option.none) from rfl, hg] at hv
                exact Option.noConfusion hv
            | some kv =>
                obtain ⟨k0, v0⟩ := kv
                rw [show valueAt (PyVal.dict kvs) (Step.fld i :: rest) =
                  (match kvs.get? i with
                   | some kv => valueAt kv.2 rest
                   | Option.none => Option.none) from rfl, hg] at hv
                rw [show pathAt (PyVal.dict kvs) p (Step.fld i :: rest) =
                  (match kvs.get? i with
                   | some kv => pathAt kv.2 (p ++ "." ++ keyStr kv.1) rest
                   | Option.none => Option.none) from rfl, hg] at hq
                have hx2 := ih v0 (p ++ "." ++ keyStr k0) v q hv hq x hx
                exact tomlWalkEntries_mem_of_get kvs p i k0 v0 hg x hx2
      | idx i =>
          cases t <;> try exact Option.noConfusion hv
          case list xs =>
            cases hg : xs.get? i with
            | none =>
                rw [show valueAt (PyVal.list xs) (Step.idx i :: rest) =
                  (match xs.get? i with
                   | some v2 => valueAt v2 rest
                   | Option.none => Option.none) from rfl, hg] at hv
                exact Option.noConfusion hv
            | some v0 =>
                rw [show valueAt (PyVal.list xs) (Step.idx i :: rest) =
                  (match xs.get? i with
                   | some v2 => valueAt v2 rest
                   | Option.none => Option.none) from rfl, hg] at hv
                rw [show pathAt (PyVal.list xs) p (Step.idx i :: rest) =
                  (match xs.get? i with
                   | some v2 => pathAt v2 (p ++ "[" ++ toString i ++ "]") rest
                   | Option.none => Option.none) from rfl, hg] at hq
                have hx2 := ih v0 (p ++ "[" ++ toString i ++ "]") v q hv hq x hx
                have hmem := tomlWalkElems_mem_of_get p xs 0 i v0 hg x
                  (by rwa [Nat.zero_add])
                exact List.mem_append_right _ hmem

/-- Helper: issues produced for the i-th entry value of a dict are among
the issues of the YAML entries walk. -/
theorem yamlWalkEntries_mem_of_get (kvs : List (PyKey × PyVal)) (p : String) :
    ∀ (i : Nat) (k : PyKey) (v : PyVal), kvs.get? i = some (k, v) →
      ∀ x ∈ yamlWalk v (p ++ "." ++ keyStr k), x ∈ yamlWalkEntries kvs p := by
  induction kvs with
  | nil => intro i k v hi; simp at hi
  | cons hd tl ih =>
      intro i k v hi x hx
      obtain ⟨k0, v0⟩ := hd
      cases i with
      | zero =>
          rw [List.get?_cons_zero] at hi
          simp only [Option.some.injEq, Prod.mk.injEq] at hi
          obtain ⟨rfl, rfl⟩ := hi
          simp only [yamlWalkEntries, List.mem_append]
          exact Or.inl (Or.inr hx)
      | succ n =>
          rw [List.get?_cons_succ] at hi
          have := ih n k v hi x hx
          simp only [yamlWalkEntries, List.mem_append]
          exact Or.inr this

/-- Helper: issues produced for the i-th element of a list are among the
issues of the YAML elements walk started at index j. -/
theorem yamlWalkElems_mem_of_get (p : String) :
    ∀ (xs : List PyVal) (j i : Nat) (v : PyVal), xs.get? i = some v →
      ∀ x ∈ yamlWalk v (p ++ "[" ++ toString (j + i) ++ "]"),
        x ∈ yamlWalkElems xs p j := by
  intro xs
  induction xs with
  | nil => intro j i v hi; simp at hi
  | cons hd tl ih =>
      intro j i v hi x hx
      cases i with
      | zero =>
          rw [List.get?_cons_zero] at hi
          injection hi with hi
          subst hi
          simp only [yamlWalkElems, List.mem_append]
          exact Or.inl (by simpa using hx)
      | succ n =>
          rw [List.get?_cons_succ] at hi
          have hidx : j + (n + 1) = (j + 1) + n := by omega
          rw [hidx] at hx
          have := ih (j + 1) n v hi x hx
          simp only [yamlWalkElems, List.mem_append]
          exact Or.inr this

/-- Helper: the YAML walk of the subtree at a position contributes all its
issues to the YAML walk of the whole tree. -/
theorem yamlWalk_mem_at :
    ∀ (pos : List Step) (t : PyVal) (p : String) (v : PyVal) (q : String),
      valueAt t pos = some v → pathAt t p pos = some q →
      ∀ x ∈ yamlWalk v q, x ∈ yamlWalk t p := by
  intro pos
  induction pos with
  | nil =>
      intro t p v q hv hq x hx
      rw [show valueAt t [] = some t from by cases t <;> rfl] at hv
      rw [show pathAt t p [] = some p from by cases t <;> rfl] at hq
      injection hv with hv
      injection hq with hq
      subst hv; subst hq
      exact hx
  | cons s rest ih =>
      intro t p v q hv hq x hx
      cases s with
      | fld i =>
          cases t <;> try exact Option.noConfusion hv
          case dict kvs =>
            cases hg : kvs.get? i with
            | none =>
                rw [show valueAt (PyVal.dict kvs) (Step.fld i :: rest) =
                  (match kvs.get? i with
                   | some kv => valueAt kv.2 rest
                   | Option.none => Option.none) from rfl, hg] at hv
                exact Option.noConfusion hv
            | some kv =>
                obtain ⟨k0, v0⟩ := kv
                rw [show valueAt (PyVal.dict kvs) (Step.fld i :: rest) =
                  (match kvs.get? i with
                   | some kv => valueAt kv.2 rest
                   | Option.none => Option.none) from rfl, hg] at hv
                rw [show pathAt (PyVal.dict kvs) p (Step.fld i :: rest) =
                  (match kvs.get? i with
                   | some kv => pathAt kv.2 (p ++ "." ++ keyStr kv.1) rest
                   | Option.none => Option.none) from rfl, hg] at hq
                have hx2 := ih v0 (p ++ "." ++ keyStr k0) v q hv hq x hx
                exact yamlWalkEntries_mem_of_get kvs p i k0 v0 hg x hx2
      | idx i =>
          cases t <;> try exact Option.noConfusion hv
          case list xs =>
            cases hg : xs.get? i with
            | none =>
                rw [show valueAt (PyVal.list xs) (Step.idx i :: rest) =
                  (match xs.get? i with
                   | some v2 => valueAt v2 rest
                   | Option.none => Option.none) from rfl, hg] at hv
                exact Option.noConfusion hv
            | some v0 =>
                rw [show valueAt (PyVal.list xs) (Step.idx i :: rest) =
                  (match xs.get? i with
                   | some v2 => valueAt v2 rest
                   | Option.none => Option.none) from rfl, hg] at hv
                rw [show pathAt (PyVal.list xs) p (Step.idx i :: rest) =
                  (match xs.get? i with
                   | some v2 => pathAt v2 (p ++ "[" ++ toString i ++ "]") rest
                   | Option.none => Option.none) from rfl, hg] at hq
                have hx2 := ih v0 (p ++ "[" ++ toString i ++ "]") v q hv hq x hx
                have hmem := yamlWalkElems_mem_of_get p xs 0 i v0 hg x
                  (by rwa [Nat.zero_add])
                exact hmem

/-- C7 counterexample: the tree with a nan at path $.x passes the XML
validator with zero errors and zero warnings, although the claim requires
every one of the four validators to report exactly one error there. -/
theorem c7_xml_nonfinite_counterexample :
    valueAt (PyVal.dict [(PyKey.str ("x"), PyVal.float PyFloat.nan)])
      [Step.fld 0] = some (PyVal.float PyFloat.nan) ∧
    pathAt (PyVal.dict [(PyKey.str ("x"), PyVal.float PyFloat.nan)]) ("$")
      [Step.fld 0] = some ("$.x") ∧
    PyFloat.nan.isFinite = false ∧
    (XMLValidator.validate
      (PyVal.dict [(PyKey.str ("x"), PyVal.float PyFloat.nan)])).errors = [] ∧
    (XMLValidator.validate
      (PyVal.dict [(PyKey.str ("x"), PyVal.float PyFloat.nan)])).warnings = [] :=
  ⟨rfl, rfl, rfl, rfl, rfl⟩

/-- C7 amended: a non-finite float contributes exactly one issue to the
JSON, TOML and YAML walks — an error carrying exactly the float's path,
never a warning — and that error reaches the errors list of the
corresponding validator for any tree containing the float at any position;
the XML validator, whose leaves only need to be string-convertible,
reports nothing for non-finite floats. -/
theorem c7_nonfinite_float_errors (f : PyFloat) (hf : f.isFinite = false) :
    (∀ p : String,
      jsonWalk (PyVal.float f) p =
        [⟨p, "non-finite float " ++ floatStr f, Severity.error⟩] ∧
      tomlWalk (PyVal.float f) p =
        [⟨p, "non-finite float " ++ floatStr f, Severity.error⟩] ∧
      yamlWalk (PyVal.float f) p =
        [⟨p, "non-finite float " ++ floatStr f, Severity.error⟩] ∧
      xmlWalk (PyVal.float f) p = []) ∧
    (∀ (t : PyVal) (pos : List Step) (q : String),
      valueAt t pos = some (PyVal.float f) → pathAt t ("$") pos = some q →
      (⟨q, "non-finite float " ++ floatStr f, Severity.error⟩ : ValidationIssue)
          ∈ (JSONValidator.validate t).errors ∧
      (⟨q, "non-finite float " ++ floatStr f, Severity.error⟩ : ValidationIssue)
          ∈ (TOMLValidator.validate t).errors ∧
      (⟨q, "non-finite float " ++ floatStr f, Severity.error⟩ : ValidationIssue)
          ∈ (YAMLValidator.validate t).errors) := by
  constructor
  · intro p
    exact ⟨by simp [jsonWalk, hf], by simp [tomlWalk, hf],
      by simp [yamlWalk, hf], rfl⟩
  · intro t pos q hv hq
    have hj := jsonWalk_mem_at pos t ("$") (PyVal.float f) q hv hq
      ⟨q, "non-finite float " ++ floatStr f, Severity.error⟩
      (by simp [jsonWalk, hf])
    have ht := tomlWalk_mem_at pos t ("$") (PyVal.float f) q hv hq
      ⟨q, "non-finite float " ++ floatStr f, Severity.error⟩
      (by simp [tomlWalk, hf])
    have hy := yamlWalk_mem_at pos t ("$") (PyVal.float f) q hv hq
      ⟨q, "non-finite float " ++ floatStr f, Severity.error⟩
      (by simp [yamlWalk, hf])
    refine ⟨?_, ?_, ?_⟩
    · exact List.mem_filter.2 ⟨hj, rfl⟩
    · exact List.mem_filter.2 ⟨ht, rfl⟩
    · exact List.mem_filter.2 ⟨hy, rfl⟩

/-- C7 witness: for the tree with a nan at path $.x, the JSON, TOML and
YAML validators all hold an error at exactly $.x. -/
theorem c7_nonfinite_float_errors_witness :
    (⟨"$.x", "non-finite float " ++ floatStr PyFloat.nan, Severity.error⟩ :
        ValidationIssue) ∈
      (JSONValidator.validate
        (PyVal.dict [(PyKey.str ("x"), PyVal.float PyFloat.nan)])).errors ∧
    (⟨"$.x", "non-finite float " ++ floatStr PyFloat.nan, Severity.error⟩ :
        ValidationIssue) ∈
      (TOMLValidator.validate
        (PyVal.dict [(PyKey.str ("x"), PyVal.float PyFloat.nan)])).errors ∧
    (⟨"$.x", "non-finite float " ++ floatStr PyFloat.nan, Severity.error⟩ :
        ValidationIssue) ∈
      (YAMLValidator.validate
        (PyVal.dict [(PyKey.str ("x"), PyVal.float PyFloat.nan)])).errors := by
  have h := (c7_nonfinite_float_errors PyFloat.nan rfl).2
    (PyVal.dict [(PyKey.str ("x"), PyVal.float PyFloat.nan)])
    [Step.fld 0] ("$.x") rfl rfl
  exact h

/-- Helper: a string beginning with an open bracket has positive length. -/
theorem bracket_append_pos (t : String) : 0 < ("[" ++ t : String).length := by
  rw [String.length_append]
  have h1 : ("[" : String).length = 1 := rfl
  omega

mutual
/-- Helper: every issue of the TOML walk at root path p has a path
extending p. -/
theorem tomlWalk_path_extends (v : PyVal) (p : String) (x : ValidationIssue)
    (hx : x ∈ tomlWalk v p) : ∃ s, x.path = p ++ s := by
  cases v with
  | dict kvs => exact tomlWalkEntries_path_extends kvs p x hx
  | list xs =>
      rcases List.mem_append.1 hx with hl | hr
      · refine ⟨"", ?_⟩
        rcases List.mem_ite_nil_left.1 hl |>.2 |> fun hmem => hmem with hmem
        · simp at hmem
          rw [hmem]
          exact (String.append_empty p).symm
      · obtain ⟨s, -, hs⟩ := tomlWalkElems_path_extends xs p 0 x hr
        exact ⟨s, hs⟩
  | float f =>
      by_cases hf : f.isFinite <;> simp [tomlWalk, hf] at hx
      rw [hx]
      exact ⟨"", (String.append_empty p).symm⟩
  | decimal q =>
      simp [tomlWalk] at hx
      rw [hx]
      exact ⟨"", (String.append_empty p).symm⟩
  | none => simp [tomlWalk] at hx
  | bool b => simp [tomlWalk] at hx
  | int n => simp [tomlWalk] at hx
  | str s => simp [tomlWalk] at hx
  | datetime => simp [tomlWalk] at hx
  | date => simp [tomlWalk] at hx
  | time => simp [tomlWalk] at hx

/-- Helper: every issue of the TOML entries walk at parent path p has a
path extending p. -/
theorem tomlWalkEntries_path_extends (kvs : List (PyKey × PyVal)) (p : String)
    (x : ValidationIssue) (hx : x ∈ tomlWalkEntries kvs p) :
    ∃ s, x.path = p ++ s := by
  cases kvs with
  | nil => simp [tomlWalkEntries] at hx
  | cons hd tl =>
      obtain ⟨k, v⟩ := hd
      rcases List.mem_append.1 hx with hl | hr
      · rcases List.mem_append.1 hl with hk | hw
        · refine ⟨"", ?_⟩
          rcases List.mem_ite_nil_left.1 hk with ⟨-, hmem⟩
          simp at hmem
          rw [hmem]
          exact (String.append_empty p).symm
        · obtain ⟨s, hs⟩ := tomlWalk_path_extends v (p ++ "." ++ keyStr k) x hw
          refine ⟨"." ++ keyStr k ++ s, ?_⟩
          rw [hs]
          simp [String.append_assoc]
      · exact tomlWalkEntries_path_extends tl p x hr

/-- Helper: every issue of the TOML elements walk has a path strictly
extending the list's own path p. -/
theorem tomlWalkElems_path_extends (xs : List PyVal) (p : String) (i : Nat)
    (x : ValidationIssue) (hx : x ∈ tomlWalkElems xs p i) :
    ∃ s, 0 < s.length ∧ x.path = p ++ s := by
  cases xs with
  | nil => simp [tomlWalkElems] at hx
  | cons hd tl =>
      rcases List.mem_append.1 hx with hl | hr
      · obtain ⟨s, hs⟩ := tomlWalk_path_extends hd
          (p ++ "[" ++ toString i ++ "]") x hl
        refine ⟨"[" ++ toString i ++ "]" ++ s, ?_, ?_⟩
        · rw [String.length_append, String.length_append,
            String.length_append]
          have h1 : ("[" : String).length = 1 := rfl
          omega
        · rw [hs]
          simp [String.append_assoc]
      · exact tomlWalkElems_path_extends tl p (i + 1) x hr
end

/-- C8 counterexample: the list [1, true] mixes two different kinds of the
data model (Number and Bool have different runtime types), yet the TOML
validator records no warning for it, because bool is a subclass of int in
Python and the homogeneity test is isinstance against type(first). -/
theorem c8_bool_int_counterexample :
    typeOf (PyVal.int 1) ≠ typeOf (PyVal.bool true) ∧
    (TOMLValidator.validate (PyVal.dict [(PyKey.str ("vals"),
      PyVal.list [PyVal.int 1, PyVal.bool true])])).warnings = [] ∧
    (TOMLValidator.validate (PyVal.dict [(PyKey.str ("vals"),
      PyVal.list [PyVal.int 1, PyVal.bool true])])).errors = [] :=
  ⟨by decide, rfl, rfl⟩

/-- C8 amended: the TOML validator records a warning — never an error — at
a sequence's own path whenever not every element is an isinstance of the
first element's runtime type (the Python notion of uniform kind, under
which booleans count as integers). -/
theorem c8_mixed_list_warning (xs : List PyVal) (p : String)
    (h : tomlHomogeneous xs = false) :
    ((⟨p, "all elements in list must be of the same type (TOML requirement)",
        Severity.warning⟩ : ValidationIssue) ∈ tomlWalk (PyVal.list xs) p) ∧
    (∀ x ∈ tomlWalk (PyVal.list xs) p,
      x.severity = Severity.error → x.path ≠ p) := by
  constructor
  · simp [tomlWalk, h]
  · intro x hx hsev
    rcases List.mem_append.1 hx with hl | hr
    · rw [h] at hl
      simp at hl
      rw [hl] at hsev
      exact Severity.noConfusion hsev
    · obtain ⟨s, hslen, hspath⟩ := tomlWalkElems_path_extends xs p 0 x hr
      intro hp
      rw [hp] at hspath
      have hlen := congrArg String.length hspath
      rw [String.length_append] at hlen
      omega

/-- C8 witness: the mixed list [1, "s", true] under the mapping key mixed
yields exactly one warning, at $.mixed, and the result stays valid. -/
theorem c8_mixed_list_warning_witness :
    tomlHomogeneous [PyVal.int 1, PyVal.str ("s"), PyVal.bool true] = false ∧
    ((⟨"$.mixed",
        "all elements in list must be of the same type (TOML requirement)",
        Severity.warning⟩ : ValidationIssue) ∈
      tomlWalk (PyVal.list [PyVal.int 1, PyVal.str ("s"), PyVal.bool true])
        ("$.mixed")) ∧
    (TOMLValidator.validate (PyVal.dict [(PyKey.str ("mixed"),
        PyVal.list [PyVal.int 1, PyVal.str ("s"), PyVal.bool true])])).warnings
      = [⟨"$.mixed",
          "all elements in list must be of the same type (TOML requirement)",
          Severity.warning⟩] ∧
    (TOMLValidator.validate (PyVal.dict [(PyKey.str ("mixed"),
        PyVal.list [PyVal.int 1, PyVal.str ("s"),
          PyVal.bool true])])).is_valid = true := by
  refine ⟨rfl, ?_, rfl, rfl⟩
  exact (c8_mixed_list_warning [PyVal.int 1, PyVal.str ("s"), PyVal.bool true]
    ("$.mixed") rfl).1
